import Mathlib

/-!
# TodoApp (`js/script.js`)

A shallow embedding of the `TodoApp` class and proofs about its operations.

Modelling conventions.

* A JavaScript string is a Lean `String`; its `length` is the number of UTF-16 code units
  (`jsLength`), and `trim` removes the ECMAScript white space and line terminators (`jsTrim`).
* A `Date` object is its time value: milliseconds since 1970-01-01T00:00:00Z, an `Int`.
* The value of the date input, and the `dueDate` of a task, is either the empty string or a
  date-only string `YYYY-MM-DD` (`DateString`).  `new Date("YYYY-MM-DD")` is midnight UTC of
  that day (ECMAScript reads the date-only form as UTC).
* The local time zone is a fixed offset from UTC in minutes (`Env.tzOffset`, positive east of
  Greenwich).  `setHours(0, 0, 0, 0)` moves a time value to the local midnight of its local day.
* Everything the class reads from its surroundings is passed in an `Env`: the clock, the time
  zone, the text that `Math.random().toString(36).substr(2)` yields and the answer to `confirm`.
* The object state is the record `TodoApp`: the fields `todos` and `currentFilter`, the values
  and messages of the form elements, and the `localStorage` item `todos`.  `render` writes only
  to the elements `taskCounter`, `emptyState` and `todoList`, which no method reads back, so it
  is the identity on this state.
-/

namespace TodoList

/-! ## JavaScript strings -/

/-- Number of UTF-16 code units of a character, its contribution to a JavaScript `length`. -/
def utf16Units (c : Char) : Nat := if c.toNat < 0x10000 then 1 else 2

/-- JavaScript `s.length`: the number of UTF-16 code units of `s`. -/
def jsLength (s : String) : Nat := (s.data.map utf16Units).sum

/-- Code points that `String.prototype.trim` strips: WhiteSpace and LineTerminator. -/
def isTrimSpace (c : Char) : Bool :=
  let n := c.toNat
  n == 0x09 || n == 0x0A || n == 0x0B || n == 0x0C || n == 0x0D || n == 0x20 || n == 0xA0 ||
  n == 0x1680 || (0x2000 ≤ n && n ≤ 0x200A) || n == 0x2028 || n == 0x2029 || n == 0x202F ||
  n == 0x205F || n == 0x3000 || n == 0xFEFF

/-- JavaScript `s.trim()`. -/
def jsTrim (s : String) : String :=
  ⟨((s.data.dropWhile isTrimSpace).reverse.dropWhile isTrimSpace).reverse⟩

/-! ## Dates -/

/-- Milliseconds in a day. -/
def msPerDay : Int := 86400000

/-- Milliseconds in a minute. -/
def msPerMinute : Int := 60000

/-- A date-only string `YYYY-MM-DD`, held as its three numbers. -/
structure DateString where
  year : Int
  month : Int
  day : Int
deriving DecidableEq, Repr

/-- Day number (days since 1970-01-01) of a civil date in the proleptic Gregorian calendar. -/
def daysFromCivil (y m d : Int) : Int :=
  let y1 := if m ≤ 2 then y - 1 else y
  let era := y1 / 400
  let yoe := y1 - era * 400
  let doy := (153 * (if m > 2 then m - 3 else m + 9) + 2) / 5 + d - 1
  let doe := yoe * 365 + yoe / 4 - yoe / 100 + doy
  era * 146097 + doe - 719468

/-- Civil date `(year, month, day)` of a day number: the inverse of `daysFromCivil`. -/
def civilFromDays (z0 : Int) : Int × Int × Int :=
  let z := z0 + 719468
  let era := z / 146097
  let doe := z - era * 146097
  let yoe := (doe - doe / 1460 + doe / 36524 - doe / 146096) / 365
  let doy := doe - (365 * yoe + yoe / 4 - yoe / 100)
  let mp := (5 * doy + 2) / 153
  let d := doy - (153 * mp + 2) / 5 + 1
  let m := if mp < 10 then mp + 3 else mp - 9
  (if m ≤ 2 then yoe + era * 400 + 1 else yoe + era * 400, m, d)

/-- Day number of a date-only string. -/
def DateString.dayNumber (s : DateString) : Int := daysFromCivil s.year s.month s.day

/-- Time value of `new Date(s)` for a date-only string `s`: midnight UTC of that day. -/
def parseDate (s : DateString) : Int := s.dayNumber * msPerDay

/-- What the class reads from its surroundings during one call. -/
structure Env where
  /-- the time value of `new Date()` and `Date.now()` -/
  now : Int
  /-- offset of local time from UTC in minutes, positive east of Greenwich -/
  tzOffset : Int
  /-- the text `Math.random().toString(36).substr(2)` -/
  randomTail : String
  /-- the answer to the `confirm` dialog -/
  confirm : Bool
deriving DecidableEq, Repr

/-- Day number of the local calendar day on which the time value `t` falls. -/
def localDay (tz t : Int) : Int := (t + tz * msPerMinute) / msPerDay

/-- Time value after `setHours(0, 0, 0, 0)`: local midnight of the local day of `t`. -/
def setHoursZero (tz t : Int) : Int := localDay tz t * msPerDay - tz * msPerMinute

/-! ## State -/

/-- A task record. -/
structure Todo where
  id : String
  text : String
  dueDate : Option DateString
  completed : Bool
  createdAt : String
deriving DecidableEq, Repr

/-- A value that `JSON.parse` can return. Numbers are restricted to integers. -/
inductive JSValue where
  | null
  | bool (b : Bool)
  | number (n : Int)
  | string (s : String)
  | array (xs : List JSValue)
  | object (fields : List (String × JSValue))

/-- The `localStorage` item `todos`, up to what `JSON.parse` makes of its text. -/
inductive StorageItem where
  /-- no such key: `getItem` returns `null` -/
  | absent
  /-- a text on which `JSON.parse` throws a `SyntaxError` -/
  | unparseable
  /-- a text that `JSON.parse` reads as `v` -/
  | json (v : JSValue)

/-- Exceptions that the modelled code can raise. -/
inductive JSError where
  | syntaxError
  | typeError
deriving DecidableEq, Repr

/-- The state of a `TodoApp` object together with the form elements and the storage item. -/
structure TodoApp where
  todos : List Todo
  currentFilter : String
  /-- `todoInput.value` -/
  todoInput : String
  /-- `dateInput.value`; `none` is the empty string -/
  dateInput : Option DateString
  /-- `todoError.textContent` -/
  todoError : String
  /-- `dateError.textContent` -/
  dateError : String
  /-- `todoInput.defaultValue`, which `todoForm.reset()` restores -/
  todoDefault : String
  /-- `dateInput.defaultValue`, which `todoForm.reset()` restores -/
  dateDefault : Option DateString
  storage : StorageItem

/-! ## Platform functions -/

/-- Digit of `Number.prototype.toString(36)`: `0`..`9` then `a`..`z`. -/
def digit36 (d : Nat) : Char := if d < 10 then Char.ofNat (48 + d) else Char.ofNat (87 + d)

/-- Base-36 digits of `n`, most significant first, in front of `acc`. -/
def toDigits36 : Nat → Nat → List Char → List Char
  | 0, _, acc => acc
  | fuel + 1, n, acc =>
    if n < 36 then digit36 n :: acc else toDigits36 fuel (n / 36) (digit36 (n % 36) :: acc)

/-- JavaScript `n.toString(36)` for an integer `n`. -/
def toString36 (n : Int) : String :=
  if n < 0 then ⟨'-' :: toDigits36 (n.natAbs + 1) n.natAbs []⟩
  else ⟨toDigits36 (n.natAbs + 1) n.natAbs []⟩

/-- Decimal text of `n`, padded with zeros on the left to `w` characters. -/
def padZero (w : Nat) (n : Int) : String :=
  let s := toString n.toNat
  ⟨List.replicate (w - s.length) '0'⟩ ++ s

/-- JavaScript `toISOString` of a time value (years 0000 to 9999). -/
def toISOString (t : Int) : String :=
  let (y, m, d) := civilFromDays (t / msPerDay)
  let ms := t % msPerDay
  padZero 4 y ++ "-" ++ padZero 2 m ++ "-" ++ padZero 2 d ++ "T" ++
  padZero 2 (ms / 3600000) ++ ":" ++ padZero 2 (ms / 60000 % 60) ++ ":" ++
  padZero 2 (ms / 1000 % 60) ++ "." ++ padZero 3 (ms % 1000) ++ "Z"

/-- Text of a date-only string. -/
def DateString.toText (s : DateString) : String :=
  padZero 4 s.year ++ "-" ++ padZero 2 s.month ++ "-" ++ padZero 2 s.day

/-- Time value of `new Date(v)` for the value of a date field; `none` is the Invalid Date
that the empty string gives. -/
def newDate : Option DateString → Option Int
  | none => none
  | some s => some (parseDate s)

/-- Short English weekday names, Sunday first. -/
def weekdayNames : List String := ["Sun", "Mon", "Tue", "Wed", "Thu", "Fri", "Sat"]

/-- Short English month names. -/
def monthNames : List String :=
  ["Jan", "Feb", "Mar", "Apr", "May", "Jun", "Jul", "Aug", "Sep", "Oct", "Nov", "Dec"]

/-- Short weekday, short month and numeric day of the day number `z`, as `en-US` writes
them: for example `Sat, Jun 15`. 1970-01-01 was a Thursday. -/
def shortDate (z : Int) : String :=
  let (_, m, d) := civilFromDays z
  weekdayNames.getD ((z + 4) % 7).toNat "" ++ ", " ++ monthNames.getD (m - 1).toNat "" ++ " " ++
    toString d.toNat

/-- Result of `toLocaleDateString('en-US', options)` with the options short weekday, short
month and numeric day, for a time value `t` in the zone `tz`: for example `Sat, Jun 15`. -/
def toLocaleDateString (tz t : Int) : String := shortDate (localDay tz t)

/-- JavaScript truthiness of a parsed JSON value. -/
def JSValue.truthy : JSValue → Bool
  | .null => false
  | .bool b => b
  | .number n => n != 0
  | .string s => s != ""
  | .array _ => true
  | .object _ => true

/-- Whether a value is `null`. -/
def JSValue.isNull : JSValue → Bool
  | .null => true
  | _ => false

/-- Whether a value is an array. -/
def JSValue.isArray : JSValue → Bool
  | .array _ => true
  | _ => false

/-- Own property `key` among the fields of a parsed object, whose keys are distinct; `none`
is `undefined`. -/
def lookupField (key : String) : List (String × JSValue) → Option JSValue
  | [] => none
  | kv :: rest => if kv.1 = key then some kv.2 else lookupField key rest

mutual
/-- Whether the conversion of a value to a primitive completes, as `new Date(v)` and a
template literal perform it. A parsed object converts through `Object.prototype.toString`
unless it has an own property `toString`, which is never callable, and then the conversion
throws; an array converts through `join`, which converts each element other than `null`. -/
def JSValue.toPrimitiveOk : JSValue → Bool
  | .array xs => JSValue.allToPrimitiveOk xs
  | .object fields => (lookupField "toString" fields).isNone
  | _ => true
/-- Whether the conversion of every value of a list to a primitive completes. -/
def JSValue.allToPrimitiveOk : List JSValue → Bool
  | [] => true
  | x :: xs => x.toPrimitiveOk && JSValue.allToPrimitiveOk xs
end

/-- The read `v.key` for one of the keys `id`, `text`, `dueDate` and `completed`, which no
prototype defines: the own property of an object, `undefined` (`none`) on the other values,
and a `TypeError` on `null`. -/
def JSValue.getProp (key : String) : JSValue → Except JSError (Option JSValue)
  | .null => .error .typeError
  | .object fields => .ok (lookupField key fields)
  | _ => .ok none

/-- Truthiness of the value of a property; `undefined` is falsy. -/
def truthyProp : Option JSValue → Bool
  | none => false
  | some v => v.truthy

/-- The conversion of the value of a property to a primitive, as far as it can throw. -/
def toPrimitive : Option JSValue → Except JSError Unit
  | none => .ok ()
  | some v => if v.toPrimitiveOk then .ok () else .error .typeError

/-- The record that `JSON.stringify` writes for a task. -/
def Todo.toJSON (t : Todo) : JSValue :=
  .object [("id", .string t.id), ("text", .string t.text),
    ("dueDate", .string (match t.dueDate with | none => "" | some d => d.toText)),
    ("completed", .bool t.completed), ("createdAt", .string t.createdAt)]

/-! ## The class `TodoApp` -/

namespace TodoApp

/-- Method `generateId`: `Date.now().toString(36) + Math.random().toString(36).substr(2)`. -/
def generateId (env : Env) : String := toString36 env.now ++ env.randomTail

/-- Method `saveTodos`: writes the serialised task list to the storage item. -/
def saveTodos (app : TodoApp) : TodoApp :=
  { app with storage := .json (.array (app.todos.map Todo.toJSON)) }

/-- Method `render`: it writes to `taskCounter`, `emptyState` and `todoList` only, none of
which is part of the modelled state. -/
def render (app : TodoApp) : TodoApp := app

/-- Method `validateForm`: sets the two error messages and returns `isValid`. -/
def validateForm (env : Env) (app : TodoApp) : TodoApp × Bool :=
  let isValid := true
  let app := { app with todoError := "", dateError := "" }
  let todoText := jsTrim app.todoInput
  let (app, isValid) :=
    if todoText = "" then
      ({ app with todoError := "Task description is required" }, false)
    else if jsLength todoText < 3 then
      ({ app with todoError := "Task description must be at least 3 characters" }, false)
    else if jsLength todoText > 100 then
      ({ app with todoError := "Task description must be less than 100 characters" }, false)
    else (app, isValid)
  match app.dateInput with
  | none => ({ app with dateError := "Due date is required" }, false)
  | some dateValue =>
    let selectedDate := parseDate dateValue
    let today := setHoursZero env.tzOffset env.now
    if selectedDate < today then
      ({ app with dateError := "Due date cannot be in the past" }, false)
    else (app, isValid)

/-- Method `handleAddTodo`, the submit handler of the form. -/
def handleAddTodo (env : Env) (app : TodoApp) : TodoApp :=
  let (app, isValid) := validateForm env app
  if !isValid then app
  else
    let todoText := jsTrim app.todoInput
    let dueDate := app.dateInput
    let newTodo : Todo :=
      { id := generateId env, text := todoText, dueDate := dueDate, completed := false,
        createdAt := toISOString env.now }
    let app := { app with todos := newTodo :: app.todos }
    let app := saveTodos app
    let app := render app
    { app with todoInput := app.todoDefault, dateInput := app.dateDefault }

/-- Method `handleFilter`; `filter` is `e.target.dataset.filter`. -/
def handleFilter (filter : String) (app : TodoApp) : TodoApp :=
  render { app with currentFilter := filter }

/-- The task list after `completed` is flipped on the first task whose id is `id`. -/
def flipFirst (id : String) : List Todo → List Todo
  | [] => []
  | t :: ts =>
    if t.id = id then { t with completed := !t.completed } :: ts else t :: flipFirst id ts

/-- Method `toggleTodo`. -/
def toggleTodo (id : String) (app : TodoApp) : TodoApp :=
  match app.todos.find? (fun t => t.id = id) with
  | some _ => render (saveTodos { app with todos := flipFirst id app.todos })
  | none => app

/-- Method `deleteTodo`. -/
def deleteTodo (env : Env) (id : String) (app : TodoApp) : TodoApp :=
  if env.confirm then
    render (saveTodos { app with todos := app.todos.filter (fun t => t.id ≠ id) })
  else app

/-- Method `getTaskStatus`. A comparison with an Invalid Date is false. -/
def getTaskStatus (env : Env) (todo : Todo) : String :=
  if todo.completed then "completed"
  else
    let today := setHoursZero env.tzOffset env.now
    match newDate todo.dueDate with
    | none => "pending"
    | some dueDate =>
      let dueDate := setHoursZero env.tzOffset dueDate
      if dueDate < today then "overdue" else "pending"

/-- Method `formatDate`. -/
def formatDate (env : Env) (dateString : Option DateString) : String :=
  let today := env.now
  let tomorrow := today + msPerDay
  let today := setHoursZero env.tzOffset today
  let tomorrow := setHoursZero env.tzOffset tomorrow
  match newDate dateString with
  | none => "📅 " ++ "Invalid Date"
  | some date =>
    let date := setHoursZero env.tzOffset date
    if date = today then "📅 Today"
    else if date = tomorrow then "📅 Tomorrow"
    else "📅 " ++ toLocaleDateString env.tzOffset date

/-- Method `getFilteredTodos`. -/
def getFilteredTodos (env : Env) (app : TodoApp) : List Todo :=
  app.todos.filter fun todo =>
    let status := getTaskStatus env todo
    if app.currentFilter = "completed" then todo.completed
    else if app.currentFilter = "pending" then !todo.completed && status != "overdue"
    else if app.currentFilter = "overdue" then !todo.completed && status == "overdue"
    else true

/-- The value of `JSON.parse(localStorage.getItem('todos'))`; `JSON.parse(null)` is `null`. -/
def parseStored : StorageItem → Except JSError JSValue
  | .absent => .ok .null
  | .unparseable => .error .syntaxError
  | .json v => .ok v

/-! The constructor runs `render` on whatever `JSON.parse` returned, before any task of the
typed state exists. The next definitions follow the methods on such a value. The strings they
compute go to the page only, so they keep the exceptions and drop the strings. -/

/-- Method `getTaskStatus` on an element of the loaded array: it reads `todo.completed` and,
when that is falsy, `new Date(todo.dueDate)` converts the due date. -/
def getTaskStatusLoaded (todo : JSValue) : Except JSError Unit := do
  let completed ← todo.getProp "completed"
  if truthyProp completed then
    pure ()
  else
    let dueDate ← todo.getProp "dueDate"
    toPrimitive dueDate

/-- Method `formatDate` on a loaded value: `new Date(dateString)` converts it; the methods
of an Invalid Date that follow do not throw. -/
def formatDateLoaded (dateString : Option JSValue) : Except JSError Unit :=
  toPrimitive dateString

/-- The template literal of `render` for one element of the loaded array. -/
def renderItemLoaded (todo : JSValue) : Except JSError Unit := do
  getTaskStatusLoaded todo
  toPrimitive (← todo.getProp "id")
  let _ ← todo.getProp "completed"
  toPrimitive (← todo.getProp "id")
  let _ ← todo.getProp "completed"
  toPrimitive (← todo.getProp "text")
  formatDateLoaded (← todo.getProp "dueDate")
  toPrimitive (← todo.getProp "id")

/-- The callback `t => t.completed` of the counter in `render`. -/
def readCompleted (todo : JSValue) : Except JSError Unit := do
  let _ ← todo.getProp "completed"
  pure ()

/-- The callback `f` run on the elements of an array in order, as `filter` and `map` do. -/
def forEachLoaded (f : JSValue → Except JSError Unit) : List JSValue → Except JSError Unit
  | [] => .ok ()
  | x :: xs => do
    f x
    forEachLoaded f xs

/-- Method `render` on the freshly loaded `this.todos`, with the filter `all`: calling
`this.todos.filter` throws unless the value is an array; `getFilteredTodos` classifies every
element, the counter reads `completed` of every element, and unless the array is empty the
template literal is built for every element. -/
def renderLoaded : JSValue → Except JSError (List JSValue)
  | .array xs => do
    forEachLoaded getTaskStatusLoaded xs
    forEachLoaded readCompleted xs
    if xs.isEmpty then
      pure xs
    else
      forEachLoaded renderItemLoaded xs
      pure xs
  | _ => .error .typeError

/-- The constructor, as far as `this.todos` goes: the loaded task sequence, or the exception
that ends the construction. -/
def constructor (item : StorageItem) : Except JSError (List JSValue) := do
  let parsed ← parseStored item
  let todos := if parsed.truthy then parsed else .array []
  renderLoaded todos

/-! ## Definitions for the statements -/

/-- The description message that `validateForm` leaves for the field value `s`. -/
def textMessage (s : String) : String :=
  if jsTrim s = "" then "Task description is required"
  else if jsLength (jsTrim s) < 3 then "Task description must be at least 3 characters"
  else if jsLength (jsTrim s) > 100 then "Task description must be less than 100 characters"
  else ""

/-- The date message that `validateForm` leaves for the field value `d`. -/
def dateMessage (env : Env) (d : Option DateString) : String :=
  match d with
  | none => "Due date is required"
  | some dateValue =>
    if parseDate dateValue < setHoursZero env.tzOffset env.now then
      "Due date cannot be in the past"
    else ""

/-! ## Sample surroundings

`envWest` is 2024-06-10, 12:00 local time, in a zone five hours west of Greenwich
(17:00 UTC); `envUTC` is 2024-06-10, 12:00 UTC, in a zone with no offset. -/

/-- Noon of 2024-06-10 in a zone five hours west of Greenwich. -/
def envWest : Env := { now := 1718038800000, tzOffset := -300, randomTail := "k3", confirm := true }

/-- Noon of 2024-06-10 in a zone with offset zero. -/
def envUTC : Env := { now := 1718020800000, tzOffset := 0, randomTail := "k3", confirm := true }

/-- A form filled with a description and a due date, over an empty store. -/
def filledForm (text : String) (date : Option DateString) : TodoApp :=
  { todos := [], currentFilter := "all", todoInput := text, dateInput := date, todoError := "",
    dateError := "", todoDefault := "", dateDefault := none, storage := .absent }

/-- A task that is not completed, with the given due date. -/
def openTask (date : Option DateString) : Todo :=
  { id := "lx97xy80k3", text := "Buy milk", dueDate := date, completed := false,
    createdAt := "2024-06-01T09:00:00.000Z" }

/-- The user types a description and picks a due date. -/
def fillForm (text : String) (date : Option DateString) (app : TodoApp) : TodoApp :=
  { app with todoInput := text, dateInput := date }

/-- The user fills the form and submits it. -/
def submit (env : Env) (text : String) (date : Option DateString) (app : TodoApp) : TodoApp :=
  handleAddTodo env (fillForm text date app)

/-- The record that `handleAddTodo` builds from the surroundings and the field values. -/
def newTodoOf (env : Env) (text : String) (date : Option DateString) : Todo :=
  { id := generateId env, text := jsTrim text, dueDate := date, completed := false,
    createdAt := toISOString env.now }

/-- A task for the samples, given by its id and its `completed` flag. -/
def sampleTask (id : String) (completed : Bool) : Todo :=
  { id := id, text := "Buy milk", dueDate := some ⟨2024, 6, 10⟩, completed := completed,
    createdAt := "2024-06-01T09:00:00.000Z" }

/-- A store that holds the given tasks, with an empty form. -/
def storeOf (todos : List Todo) : TodoApp :=
  { todos := todos, currentFilter := "all", todoInput := "", dateInput := none, todoError := "",
    dateError := "", todoDefault := "", dateDefault := none, storage := .absent }

/-- An operation on the store: a submission of the filled form, a toggle or a deletion. -/
inductive Op where
  | add (env : Env) (text : String) (date : Option DateString)
  | toggle (id : String)
  | delete (env : Env) (id : String)

/-- One operation applied to the store. -/
def step (app : TodoApp) : Op → TodoApp
  | .add env text date => submit env text date app
  | .toggle id => toggleTodo id app
  | .delete env id => deleteTodo env id app

/-- A sequence of operations applied to the store, one after the other. -/
def run (ops : List Op) (app : TodoApp) : TodoApp := ops.foldl step app

/-- The ids of the tasks of the store, in order. -/
def ids (app : TodoApp) : List String := app.todos.map (fun t => t.id)

/-- Whether the operation, if it is a submission that passes `validateForm`, generates an id
that no task of the store has. -/
def addIsFresh (app : TodoApp) : Op → Bool
  | .add env text date =>
    !(validateForm env (fillForm text date app)).2 || !(ids app).contains (generateId env)
  | _ => true

/-- Whether every successful submission of the run generates an id that no task has at that
moment. -/
def freshAdds : List Op → TodoApp → Bool
  | [], _ => true
  | op :: ops, app => addIsFresh app op && freshAdds ops (step app op)

/-- Whether the value of a property, when it is there, converts to a primitive. -/
def optConverts : Option JSValue → Bool
  | none => true
  | some w => w.toPrimitiveOk

/-- Whether the property `key` of a loaded element, when it is there, converts to a
primitive. -/
def propConverts (key : String) : JSValue → Bool
  | .object fields => optConverts (lookupField key fields)
  | _ => true

/-- Whether a loaded element is not `null` and its `id`, `text` and `dueDate` convert to a
primitive. -/
def renderable (v : JSValue) : Bool :=
  !v.isNull && propConverts "id" v && propConverts "text" v && propConverts "dueDate" v

/-! ## Validation -/

theorem utf16Units_pos (c : Char) : 0 < utf16Units c := by
  unfold utf16Units; split <;> decide

theorem jsLength_eq_zero_iff (s : String) : jsLength s = 0 ↔ s = "" := by
  cases s with
  | mk cs =>
    cases cs with
    | nil => simp [jsLength]
    | cons c cs =>
      have h := utf16Units_pos c
      constructor
      · intro h0
        simp only [jsLength, List.map_cons, List.sum_cons] at h0
        omega
      · intro h0
        exact absurd (congrArg String.data h0) (by simp)

theorem validateForm_eq (env : Env) (app : TodoApp) :
    validateForm env app =
      ({ app with todoError := textMessage app.todoInput,
                  dateError := dateMessage env app.dateInput },
        decide (textMessage app.todoInput = "") &&
          decide (dateMessage env app.dateInput = "")) := by
  unfold validateForm textMessage dateMessage
  by_cases h0 : jsTrim app.todoInput = ""
  · cases hd : app.dateInput with
    | none => simp [h0]
    | some d =>
      by_cases hp : parseDate d < setHoursZero env.tzOffset env.now <;> simp [h0, hp, hd]
  · by_cases h3 : jsLength (jsTrim app.todoInput) < 3
    · cases hd : app.dateInput with
      | none => simp [h0, h3]
      | some d =>
        by_cases hp : parseDate d < setHoursZero env.tzOffset env.now <;> simp [h0, h3, hp, hd]
    · by_cases h100 : jsLength (jsTrim app.todoInput) > 100
      · cases hd : app.dateInput with
        | none => simp [h0, h3, h100]
        | some d =>
          by_cases hp : parseDate d < setHoursZero env.tzOffset env.now <;>
            simp [h0, h3, h100, hp, hd]
      · cases hd : app.dateInput with
        | none => simp [h0, h3, h100]
        | some d =>
          by_cases hp : parseDate d < setHoursZero env.tzOffset env.now <;>
            simp [h0, h3, h100, hp, hd]

/-- C1: the description message that `validateForm` leaves depends only on the length `n` of
the trimmed description: the required-message for `n = 0`, the too-short message for `n` 1 or
2, the too-long message for `n > 100`, and no message exactly when `3 ≤ n ≤ 100`; the date
field plays no part in it, and the form is valid only when no description message is set. -/
theorem validateForm_text_check (env : Env) (app : TodoApp) :
    (validateForm env app).1.todoError =
        (if jsLength (jsTrim app.todoInput) = 0 then "Task description is required"
         else if jsLength (jsTrim app.todoInput) < 3 then
           "Task description must be at least 3 characters"
         else if jsLength (jsTrim app.todoInput) > 100 then
           "Task description must be less than 100 characters"
         else "") ∧
      ((validateForm env app).1.todoError = "" ↔
        3 ≤ jsLength (jsTrim app.todoInput) ∧ jsLength (jsTrim app.todoInput) ≤ 100) ∧
      ((validateForm env app).2 = true ↔
        (validateForm env app).1.todoError = "" ∧ (validateForm env app).1.dateError = "") := by
  have hz : jsTrim app.todoInput = "" ↔ jsLength (jsTrim app.todoInput) = 0 :=
    (jsLength_eq_zero_iff _).symm
  rw [validateForm_eq]
  simp only [textMessage, hz]
  generalize jsLength (jsTrim app.todoInput) = n
  by_cases h0 : n = 0
  · subst h0; simp
  · by_cases h3 : n < 3
    · simp [h0, h3]
    · by_cases h100 : n > 100
      · simp [h0, h3, h100]
      · simp [h0, h3, h100]; omega

/-! ## Calendar days and time zones -/

theorem parseDate_lt_today_east (tz now D : Int) (h0 : 0 ≤ tz) (h1 : tz < 1440) :
    D * msPerDay < setHoursZero tz now ↔ D < localDay tz now := by
  unfold setHoursZero msPerDay msPerMinute
  generalize localDay tz now = T
  constructor <;> intro h <;> omega

theorem parseDate_lt_today_west (tz now D : Int) (h0 : -1440 < tz) (h1 : tz < 0) :
    D * msPerDay < setHoursZero tz now ↔ D ≤ localDay tz now := by
  unfold setHoursZero msPerDay msPerMinute
  generalize localDay tz now = T
  constructor <;> intro h <;> omega

theorem localDay_midnight_east (tz D : Int) (h0 : 0 ≤ tz) (h1 : tz < 1440) :
    localDay tz (D * msPerDay) = D := by
  unfold localDay msPerDay msPerMinute
  omega

theorem localDay_midnight_west (tz D : Int) (h0 : -1440 ≤ tz) (h1 : tz < 0) :
    localDay tz (D * msPerDay) = D - 1 := by
  unfold localDay msPerDay msPerMinute
  omega

theorem setHoursZero_lt_iff (tz a b : Int) :
    setHoursZero tz a < setHoursZero tz b ↔ localDay tz a < localDay tz b := by
  unfold setHoursZero msPerDay msPerMinute
  constructor <;> intro h <;> omega

theorem setHoursZero_eq_iff (tz a b : Int) :
    setHoursZero tz a = setHoursZero tz b ↔ localDay tz a = localDay tz b := by
  unfold setHoursZero msPerDay msPerMinute
  constructor <;> intro h <;> omega

theorem localDay_add_day (tz t : Int) : localDay tz (t + msPerDay) = localDay tz t + 1 := by
  unfold localDay msPerDay msPerMinute
  omega

/-! ## The date check of `validateForm` -/

/-- The date message that `validateForm` leaves, in a zone at or east of Greenwich: required
when the field is empty, the past-message iff the day is before the local day of the clock. -/
theorem validateForm_date_east (env : Env) (app : TodoApp)
    (h0 : 0 ≤ env.tzOffset) (h1 : env.tzOffset < 1440) :
    (validateForm env app).1.dateError =
      (match app.dateInput with
       | none => "Due date is required"
       | some d =>
         if d.dayNumber < localDay env.tzOffset env.now then "Due date cannot be in the past"
         else "") := by
  rw [validateForm_eq]
  cases hd : app.dateInput with
  | none => rfl
  | some d => simp only [dateMessage, parseDate, parseDate_lt_today_east _ _ _ h0 h1]

/-- The date check of `validateForm` in a zone west of Greenwich rejects the local day of
the clock itself. -/
theorem validateForm_date_west_today (env : Env) (app : TodoApp) (d : DateString)
    (h0 : -1440 < env.tzOffset) (h1 : env.tzOffset < 0) (hd : app.dateInput = some d)
    (htoday : d.dayNumber = localDay env.tzOffset env.now) :
    (validateForm env app).1.dateError = "Due date cannot be in the past" ∧
      (validateForm env app).2 = false := by
  have hlt : d.dayNumber ≤ localDay env.tzOffset env.now := by omega
  rw [validateForm_eq]
  simp [hd, dateMessage, parseDate, parseDate_lt_today_west _ _ _ h0 h1, hlt]

/-- C2: at noon of 2024-06-10 in a zone five hours west of Greenwich the due date 2024-06-10,
the local day of the clock, is refused with the past-date message and the form is invalid. -/
theorem validateForm_rejects_today_west :
    (DateString.mk 2024 6 10).dayNumber = localDay envWest.tzOffset envWest.now ∧
      (validateForm envWest (filledForm "Buy milk" (some ⟨2024, 6, 10⟩))).1.dateError =
        "Due date cannot be in the past" ∧
      (validateForm envWest (filledForm "Buy milk" (some ⟨2024, 6, 10⟩))).1.todoError = "" ∧
      (validateForm envWest (filledForm "Buy milk" (some ⟨2024, 6, 10⟩))).2 = false := by
  decide

/-! ## `getTaskStatus` -/

/-- A completed task is classified `completed`, whatever its due date and the clock. -/
theorem getTaskStatus_completed (env : Env) (todo : Todo) (hc : todo.completed = true) :
    getTaskStatus env todo = "completed" := by
  simp [getTaskStatus, hc]

/-- In a zone at or east of Greenwich a task that is not completed is `overdue` iff its due
day is before the local day of the clock, and `pending` otherwise. -/
theorem getTaskStatus_east (env : Env) (todo : Todo) (d : DateString)
    (h0 : 0 ≤ env.tzOffset) (h1 : env.tzOffset < 1440)
    (hc : todo.completed = false) (hd : todo.dueDate = some d) :
    getTaskStatus env todo =
      if d.dayNumber < localDay env.tzOffset env.now then "overdue" else "pending" := by
  simp only [getTaskStatus, hc, hd, newDate, parseDate, setHoursZero_lt_iff,
    localDay_midnight_east _ _ h0 h1]
  rfl

/-- In a zone west of Greenwich a task that is not completed is `overdue` already when its
due day is the local day of the clock. -/
theorem getTaskStatus_west (env : Env) (todo : Todo) (d : DateString)
    (h0 : -1440 ≤ env.tzOffset) (h1 : env.tzOffset < 0)
    (hc : todo.completed = false) (hd : todo.dueDate = some d) :
    getTaskStatus env todo =
      if d.dayNumber ≤ localDay env.tzOffset env.now then "overdue" else "pending" := by
  simp only [getTaskStatus, hc, hd, newDate, parseDate, setHoursZero_lt_iff,
    localDay_midnight_west _ _ h0 h1]
  have e : (d.dayNumber - 1 < localDay env.tzOffset env.now) ↔
      (d.dayNumber ≤ localDay env.tzOffset env.now) := by omega
  simp only [e]
  rfl

/-- C4: at noon of 2024-06-10 in a zone five hours west of Greenwich a task that is not
completed and is due on 2024-06-10, the local day of the clock, is classified `overdue`. -/
theorem getTaskStatus_today_overdue_west :
    (DateString.mk 2024 6 10).dayNumber = localDay envWest.tzOffset envWest.now ∧
      (openTask (some ⟨2024, 6, 10⟩)).completed = false ∧
      getTaskStatus envWest (openTask (some ⟨2024, 6, 10⟩)) = "overdue" := by
  decide

/-! ## `formatDate` -/

/-- C10: at noon of 2024-06-10 in a zone five hours west of Greenwich `formatDate` labels the
due date 2024-06-10, the local day of the clock, `📅 Sun, Jun 9`, and the due date 2024-06-11,
the day after, `📅 Today`. -/
theorem formatDate_today_mislabelled_west :
    (DateString.mk 2024 6 10).dayNumber = localDay envWest.tzOffset envWest.now ∧
      (DateString.mk 2024 6 11).dayNumber = localDay envWest.tzOffset envWest.now + 1 ∧
      formatDate envWest (some ⟨2024, 6, 10⟩) = "📅 Sun, Jun 9" ∧
      formatDate envWest (some ⟨2024, 6, 11⟩) = "📅 Today" := by
  decide

/-- In a zone at or east of Greenwich `formatDate` returns `📅 Today` when the
due day is the local day of the clock, `📅 Tomorrow` when it is the day after, and otherwise
`📅 ` followed by the short weekday, short month and day of the due day; the time of day of
the clock plays no part. -/
theorem formatDate_east (env : Env) (d : DateString)
    (h0 : 0 ≤ env.tzOffset) (h1 : env.tzOffset < 1440) :
    formatDate env (some d) =
      if d.dayNumber = localDay env.tzOffset env.now then "📅 Today"
      else if d.dayNumber = localDay env.tzOffset env.now + 1 then "📅 Tomorrow"
      else "📅 " ++ shortDate d.dayNumber := by
  simp only [formatDate, newDate, parseDate, setHoursZero_eq_iff, localDay_add_day,
    toLocaleDateString, localDay_midnight_east _ _ h0 h1]
  have e : localDay env.tzOffset (setHoursZero env.tzOffset (d.dayNumber * msPerDay)) =
      d.dayNumber := by
    have := localDay_midnight_east env.tzOffset d.dayNumber h0 h1
    unfold setHoursZero localDay msPerDay msPerMinute at *
    omega
  rw [e]

/-- The labels at noon UTC of 2024-06-10 for the due dates 2024-06-10, 2024-06-11 and
2024-06-15. -/
theorem formatDate_east_sample :
    (0 ≤ envUTC.tzOffset ∧ envUTC.tzOffset < 1440) ∧
      formatDate envUTC (some ⟨2024, 6, 10⟩) = "📅 Today" ∧
      formatDate envUTC (some ⟨2024, 6, 11⟩) = "📅 Tomorrow" ∧
      formatDate envUTC (some ⟨2024, 6, 15⟩) = "📅 Sat, Jun 15" :=
  ⟨by decide,
   (formatDate_east envUTC ⟨2024, 6, 10⟩ (by decide) (by decide)).trans (by decide),
   (formatDate_east envUTC ⟨2024, 6, 11⟩ (by decide) (by decide)).trans (by decide),
   (formatDate_east envUTC ⟨2024, 6, 15⟩ (by decide) (by decide)).trans (by decide)⟩

/-! ## `handleAddTodo` -/

theorem handleAddTodo_of_valid (env : Env) (app : TodoApp)
    (hv : (validateForm env app).2 = true) :
    handleAddTodo env app =
      { app with
        todos := newTodoOf env app.todoInput app.dateInput :: app.todos
        todoError := "", dateError := ""
        todoInput := app.todoDefault, dateInput := app.dateDefault
        storage := .json (.array
          ((newTodoOf env app.todoInput app.dateInput :: app.todos).map Todo.toJSON)) } := by
  have hv2 := hv
  rw [validateForm_eq] at hv2
  simp only [Bool.and_eq_true, decide_eq_true_eq] at hv2
  unfold handleAddTodo
  rw [validateForm_eq]
  simp [hv2.1, hv2.2, saveTodos, render, newTodoOf]

theorem handleAddTodo_of_invalid (env : Env) (app : TodoApp)
    (hv : (validateForm env app).2 = false) :
    (handleAddTodo env app).todos = app.todos ∧
      (handleAddTodo env app).storage = app.storage := by
  unfold handleAddTodo
  have e : validateForm env app = ((validateForm env app).1, false) := by rw [← hv]
  rw [e]
  simp [validateForm_eq]

theorem submit_todos (env : Env) (text : String) (date : Option DateString) (app : TodoApp)
    (hv : (validateForm env (fillForm text date app)).2 = true) :
    (submit env text date app).todos = newTodoOf env text date :: app.todos := by
  unfold submit
  rw [handleAddTodo_of_valid env _ hv]
  rfl

/-- C3: when the form passes `validateForm`, `handleAddTodo` puts the new task in front of the
task sequence and leaves the tasks already there as they were: the new task has the trimmed
description, the due date of the form, which is present, and `completed = false`, and the
sequence is saved. Hence three valid submissions to an empty store leave the three tasks in
the order third, second, first. -/
theorem handleAddTodo_prepends (env : Env) (app : TodoApp)
    (hv : (validateForm env app).2 = true) :
    (handleAddTodo env app).todos =
        { id := generateId env, text := jsTrim app.todoInput, dueDate := app.dateInput,
          completed := false, createdAt := toISOString env.now } :: app.todos ∧
      app.dateInput.isSome = true ∧
      (handleAddTodo env app).storage =
        .json (.array ((handleAddTodo env app).todos.map Todo.toJSON)) ∧
      ∀ (env2 env3 : Env) (text2 text3 : String) (date2 date3 : Option DateString),
        app.todos = [] →
        (validateForm env2 (fillForm text2 date2 (handleAddTodo env app))).2 = true →
        (validateForm env3
          (fillForm text3 date3 (submit env2 text2 date2 (handleAddTodo env app)))).2 = true →
        (submit env3 text3 date3 (submit env2 text2 date2 (handleAddTodo env app))).todos =
          [newTodoOf env3 text3 date3, newTodoOf env2 text2 date2,
            newTodoOf env app.todoInput app.dateInput] := by
  have h1 := handleAddTodo_of_valid env app hv
  refine ⟨by rw [h1]; rfl, ?_, by rw [h1], ?_⟩
  · rw [validateForm_eq] at hv
    simp only [Bool.and_eq_true, decide_eq_true_eq] at hv
    cases hd : app.dateInput with
    | none => rw [hd] at hv; exact absurd hv.2 (by simp [dateMessage])
    | some d => rfl
  · intro env2 env3 text2 text3 date2 date3 hnil hv2 hv3
    rw [submit_todos _ _ _ _ hv3, submit_todos _ _ _ _ hv2, h1, hnil]

/-- Witness for C3 at noon UTC of 2024-06-10: a task due that day is added to an empty store. -/
theorem handleAddTodo_prepends_witness :
    (validateForm envUTC (filledForm "  Buy milk " (some ⟨2024, 6, 10⟩))).2 = true ∧
      (handleAddTodo envUTC (filledForm "  Buy milk " (some ⟨2024, 6, 10⟩))).todos =
        [{ id := "lx8x85c0k3", text := "Buy milk", dueDate := some ⟨2024, 6, 10⟩,
           completed := false, createdAt := "2024-06-10T12:00:00.000Z" }] :=
  ⟨by decide,
   (handleAddTodo_prepends envUTC (filledForm "  Buy milk " (some ⟨2024, 6, 10⟩))
      (by decide)).1.trans (by decide)⟩

/-! ## `getFilteredTodos` and `handleFilter` -/

/-- C5: for each of the four filters `getFilteredTodos` is the order-preserving selection of
the tasks of the store that satisfy the predicate of the filter: every task for `all`, the
completed ones for `completed`, those not completed and not classified `overdue` for
`pending`, those not completed and classified `overdue` for `overdue`. The result is a
subsequence of the task sequence, and choosing a filter leaves the task sequence and the
saved data as they are. -/
theorem getFilteredTodos_spec (env : Env) (app : TodoApp) :
    getFilteredTodos env (handleFilter "all" app) = app.todos ∧
      getFilteredTodos env (handleFilter "completed" app) =
        app.todos.filter (fun t => t.completed) ∧
      getFilteredTodos env (handleFilter "pending" app) =
        app.todos.filter (fun t => !t.completed && getTaskStatus env t != "overdue") ∧
      getFilteredTodos env (handleFilter "overdue" app) =
        app.todos.filter (fun t => !t.completed && getTaskStatus env t == "overdue") ∧
      (∀ t, t ∈ getFilteredTodos env (handleFilter "pending" app) ↔
        t ∈ app.todos ∧ t.completed = false ∧ getTaskStatus env t ≠ "overdue") ∧
      (∀ t, t ∈ getFilteredTodos env (handleFilter "overdue" app) ↔
        t ∈ app.todos ∧ t.completed = false ∧ getTaskStatus env t = "overdue") ∧
      (∀ filter, (getFilteredTodos env (handleFilter filter app)).Sublist app.todos) ∧
      (∀ filter, (handleFilter filter app).todos = app.todos ∧
        (handleFilter filter app).storage = app.storage) := by
  have hp : getFilteredTodos env (handleFilter "pending" app) =
      app.todos.filter (fun t => !t.completed && getTaskStatus env t != "overdue") := by
    simp [getFilteredTodos, handleFilter, render]
  have ho : getFilteredTodos env (handleFilter "overdue" app) =
      app.todos.filter (fun t => !t.completed && getTaskStatus env t == "overdue") := by
    simp [getFilteredTodos, handleFilter, render]
  refine ⟨?_, ?_, hp, ho, ?_, ?_, ?_, ?_⟩
  · simp [getFilteredTodos, handleFilter, render]
  · simp [getFilteredTodos, handleFilter, render]
  · intro t
    rw [hp]
    simp [List.mem_filter]
  · intro t
    rw [ho]
    simp [List.mem_filter]
  · intro filter
    exact List.filter_sublist _
  · intro filter
    exact ⟨rfl, rfl⟩

/-! ## `toggleTodo` -/

theorem flipFirst_flipFirst (id : String) (ts : List Todo) :
    flipFirst id (flipFirst id ts) = ts := by
  induction ts with
  | nil => rfl
  | cons t ts ih =>
    by_cases h : t.id = id
    · subst h
      cases t
      simp [flipFirst]
    · simp [flipFirst, h, ih]

theorem find?_flipFirst_isSome (id : String) (ts : List Todo) :
    ((flipFirst id ts).find? (fun t => t.id = id)).isSome =
      (ts.find? (fun t => t.id = id)).isSome := by
  induction ts with
  | nil => rfl
  | cons t ts ih =>
    by_cases h : t.id = id
    · simp [flipFirst, h]
    · simp [flipFirst, h, ih]

theorem flipFirst_of_absent (id : String) (ts : List Todo)
    (h : ts.find? (fun t => t.id = id) = none) : flipFirst id ts = ts := by
  induction ts with
  | nil => rfl
  | cons t ts ih =>
    by_cases ht : t.id = id
    · simp [ht] at h
    · simp [ht] at h
      simp only [flipFirst, ht, if_false]
      rw [ih (by simpa using h)]

/-- C7: two calls of `toggleTodo` with the same id in a row bring the task sequence back to
what it was, with every field of every task and the order as before; when a task has the id
the state after the two calls is the original state with the task sequence saved, and when
no task has the id each call leaves the whole state as it is. After one call the first task
with the id, and only it, has its `completed` flipped. -/
theorem toggleTodo_twice (id : String) (app : TodoApp) :
    (toggleTodo id (toggleTodo id app)).todos = app.todos ∧
      toggleTodo id (toggleTodo id app) =
        (if (app.todos.find? (fun t => t.id = id)).isSome then saveTodos app else app) ∧
      (toggleTodo id app).todos = flipFirst id app.todos ∧
      ((app.todos.find? (fun t => t.id = id)).isSome = false → toggleTodo id app = app) := by
  cases hf : app.todos.find? (fun t => t.id = id) with
  | none =>
    have h1 : toggleTodo id app = app := by simp [toggleTodo, hf]
    refine ⟨by rw [h1, h1], by rw [h1, h1]; simp, ?_, fun _ => h1⟩
    rw [h1, flipFirst_of_absent id _ hf]
  | some t =>
    have h1 : toggleTodo id app = saveTodos { app with todos := flipFirst id app.todos } := by
      simp [toggleTodo, hf, render]
    have hs : ((flipFirst id app.todos).find? (fun t => t.id = id)).isSome = true := by
      rw [find?_flipFirst_isSome, hf]; rfl
    obtain ⟨u, hu⟩ := Option.isSome_iff_exists.1 hs
    have h2 : toggleTodo id (toggleTodo id app) = saveTodos app := by
      rw [h1]
      simp [toggleTodo, saveTodos, hu, render, flipFirst_flipFirst]
    refine ⟨by rw [h2]; rfl, by rw [h2]; simp, by rw [h1]; rfl, fun h => by simp at h⟩

/-! ## `deleteTodo` -/

/-- C8: with the deletion confirmed, a second `deleteTodo` with the same id changes nothing
(task sequence, saved data and all other state are those after the first call); after one
call no task with the id remains, the tasks with another id are kept unchanged in their
order, the saved data is the new sequence, and when no task has the id the sequence is
unchanged. -/
theorem deleteTodo_idempotent (env1 env2 : Env) (id : String) (app : TodoApp)
    (hc1 : env1.confirm = true) (hc2 : env2.confirm = true) :
    deleteTodo env2 id (deleteTodo env1 id app) = deleteTodo env1 id app ∧
      (∀ t ∈ (deleteTodo env1 id app).todos, t.id ≠ id) ∧
      (deleteTodo env1 id app).todos = app.todos.filter (fun t => t.id ≠ id) ∧
      (∀ t, t ∈ (deleteTodo env1 id app).todos ↔ t ∈ app.todos ∧ t.id ≠ id) ∧
      (deleteTodo env1 id app).todos.Sublist app.todos ∧
      (deleteTodo env1 id app).storage =
        .json (.array ((deleteTodo env1 id app).todos.map Todo.toJSON)) ∧
      ((∀ t ∈ app.todos, t.id ≠ id) → (deleteTodo env1 id app).todos = app.todos) := by
  have h1 : deleteTodo env1 id app =
      saveTodos { app with todos := app.todos.filter (fun t => t.id ≠ id) } := by
    simp [deleteTodo, hc1, render]
  refine ⟨?_, ?_, by rw [h1]; rfl, ?_, ?_, by rw [h1]; rfl, ?_⟩
  · rw [h1]
    simp [deleteTodo, hc2, render, saveTodos, List.filter_filter]
  · intro t ht
    rw [h1] at ht
    simpa using (List.mem_filter.1 ht).2
  · intro t
    rw [h1]
    simp [saveTodos, List.mem_filter]
  · rw [h1]
    exact List.filter_sublist _
  · intro h
    rw [h1]
    simp only [saveTodos]
    exact List.filter_eq_self.2 (fun t ht => by simpa using h t ht)

/-- Witness for C8: deleting `b` from the tasks `a`, `b`, `c` leaves `a`, `c`. -/
theorem deleteTodo_idempotent_witness :
    envUTC.confirm = true ∧
      (deleteTodo envUTC "b"
        (storeOf [sampleTask "a" false, sampleTask "b" true, sampleTask "c" false])).todos =
        [sampleTask "a" false, sampleTask "c" false] :=
  ⟨rfl,
   (deleteTodo_idempotent envUTC envUTC "b"
      (storeOf [sampleTask "a" false, sampleTask "b" true, sampleTask "c" false])
      rfl rfl).2.2.1.trans (by decide)⟩

/-! ## Uniqueness of ids -/

theorem ids_flipFirst (id : String) (ts : List Todo) :
    (flipFirst id ts).map (fun t => t.id) = ts.map (fun t => t.id) := by
  induction ts with
  | nil => rfl
  | cons t ts ih =>
    by_cases h : t.id = id
    · simp [flipFirst, h]
    · simp [flipFirst, h, ih]

theorem ids_toggleTodo (id : String) (app : TodoApp) : ids (toggleTodo id app) = ids app := by
  unfold toggleTodo
  cases app.todos.find? (fun t => t.id = id) with
  | none => rfl
  | some t => simp [ids, render, saveTodos, ids_flipFirst]

theorem ids_deleteTodo_sublist (env : Env) (id : String) (app : TodoApp) :
    (ids (deleteTodo env id app)).Sublist (ids app) := by
  unfold deleteTodo
  split
  · simp only [ids, render, saveTodos]
    exact (List.filter_sublist _).map _
  · exact List.Sublist.refl _

theorem step_nodup (app : TodoApp) (op : Op) (hn : (ids app).Nodup)
    (hf : addIsFresh app op = true) : (ids (step app op)).Nodup := by
  cases op with
  | add env text date =>
    simp only [step]
    cases hv : (validateForm env (fillForm text date app)).2 with
    | false =>
      have h := (handleAddTodo_of_invalid env _ hv).1
      simp only [ids, submit, h]
      exact hn
    | true =>
      simp only [addIsFresh, hv, Bool.not_true, Bool.false_or, Bool.not_eq_true_eq_eq_false,
        Bool.not_eq_true] at hf
      simp only [ids, submit_todos _ _ _ _ hv, List.map_cons, List.nodup_cons]
      refine ⟨?_, hn⟩
      intro hmem
      have : (ids app).contains (generateId env) = true := by
        simpa [ids, newTodoOf] using hmem
      rw [this] at hf
      exact absurd hf (by decide)
  | toggle id =>
    simp only [step, ids_toggleTodo]
    exact hn
  | delete env id =>
    exact hn.sublist (ids_deleteTodo_sublist env id app)

/-- The claim of C9 fails: two valid submissions at the same clock reading with the same
random text give two tasks with one id. -/
theorem ids_not_unique_after_equal_draws :
    (ids (storeOf [])).Nodup ∧
      ids (run [.add envUTC "Buy milk" (some ⟨2024, 6, 10⟩),
                .add envUTC "Buy bread" (some ⟨2024, 6, 11⟩)] (storeOf [])) =
        ["lx8x85c0k3", "lx8x85c0k3"] ∧
      ¬ (ids (run [.add envUTC "Buy milk" (some ⟨2024, 6, 10⟩),
                   .add envUTC "Buy bread" (some ⟨2024, 6, 11⟩)] (storeOf []))).Nodup := by
  decide

/-- C9, amended: from a task sequence with pairwise distinct ids, any run of submissions,
toggles and deletions in which every successful submission generates an id that no task of
the store has at that moment ends with pairwise distinct ids. -/
theorem run_ids_nodup (ops : List Op) (app : TodoApp)
    (hn : (ids app).Nodup) (hf : freshAdds ops app = true) : (ids (run ops app)).Nodup := by
  induction ops generalizing app with
  | nil => exact hn
  | cons op ops ih =>
    simp only [freshAdds, Bool.and_eq_true] at hf
    exact ih (step app op) (step_nodup app op hn hf.1) hf.2

/-- Witness for C9: two submissions with different random texts, a toggle and a deletion. -/
theorem run_ids_nodup_witness :
    (ids (storeOf [sampleTask "a" false])).Nodup ∧
      freshAdds [.add envUTC "Buy milk" (some ⟨2024, 6, 10⟩),
                 .add envWest "Buy bread" (some ⟨2024, 6, 11⟩),
                 .toggle "a", .delete envUTC "a"] (storeOf [sampleTask "a" false]) = true ∧
      (ids (run [.add envUTC "Buy milk" (some ⟨2024, 6, 10⟩),
                 .add envWest "Buy bread" (some ⟨2024, 6, 11⟩),
                 .toggle "a", .delete envUTC "a"] (storeOf [sampleTask "a" false]))).Nodup :=
  ⟨by decide, by decide,
   run_ids_nodup _ (storeOf [sampleTask "a" false]) (by decide) (by decide)⟩

/-! ## The constructor -/

theorem toPrimitive_eq (o : Option JSValue) :
    toPrimitive o = if optConverts o then .ok () else .error .typeError := by
  cases o <;> rfl

theorem renderItemLoaded_eq (v : JSValue) :
    renderItemLoaded v = if renderable v then .ok () else .error .typeError := by
  cases v with
  | object fields =>
    simp only [renderItemLoaded, getTaskStatusLoaded, formatDateLoaded, JSValue.getProp,
      renderable, propConverts, JSValue.isNull, bind, Except.bind, pure, Except.pure,
      toPrimitive_eq]
    by_cases hc : truthyProp (lookupField "completed" fields) = true <;>
    by_cases hd : optConverts (lookupField "dueDate" fields) = true <;>
    by_cases hi : optConverts (lookupField "id" fields) = true <;>
    by_cases ht : optConverts (lookupField "text" fields) = true <;>
    simp [hc, hd, hi, ht]
  | _ => rfl

theorem getTaskStatusLoaded_of_renderable (v : JSValue) (h : renderable v = true) :
    getTaskStatusLoaded v = .ok () := by
  have hi := renderItemLoaded_eq v
  rw [h] at hi
  simp only [renderItemLoaded, bind, Except.bind, if_true] at hi
  cases hs : getTaskStatusLoaded v with
  | ok u => rfl
  | error e => rw [hs] at hi; cases hi

theorem readCompleted_of_renderable (v : JSValue) (h : renderable v = true) :
    readCompleted v = .ok () := by
  cases v with
  | null => simp [renderable, JSValue.isNull] at h
  | _ => rfl

theorem readCompleted_error (v : JSValue) (e : JSError)
    (h : readCompleted v = .error e) : e = .typeError := by
  cases v with
  | null => cases h; rfl
  | bool b => cases h
  | number n => cases h
  | string s => cases h
  | array xs => cases h
  | object fields => cases h

theorem forEachLoaded_ok (f : JSValue → Except JSError Unit) (xs : List JSValue)
    (h : ∀ x ∈ xs, f x = .ok ()) : forEachLoaded f xs = .ok () := by
  induction xs with
  | nil => rfl
  | cons x xs ih =>
    simp only [forEachLoaded, bind, Except.bind, h x (List.mem_cons_self _ _)]
    exact ih (fun y hy => h y (List.mem_cons_of_mem _ hy))

theorem forEachLoaded_renderItemLoaded (xs : List JSValue) :
    forEachLoaded renderItemLoaded xs =
      if xs.all renderable then .ok () else .error .typeError := by
  induction xs with
  | nil => rfl
  | cons x xs ih =>
    simp only [forEachLoaded, bind, Except.bind, renderItemLoaded_eq, List.all_cons]
    by_cases hx : renderable x = true
    · simp only [hx, if_true, Bool.true_and]
      exact ih
    · simp [hx]

theorem getTaskStatusLoaded_error (v : JSValue) (e : JSError)
    (h : getTaskStatusLoaded v = .error e) : e = .typeError := by
  cases v with
  | object fields =>
    simp only [getTaskStatusLoaded, JSValue.getProp, bind, Except.bind, pure,
      Except.pure, toPrimitive_eq] at h
    by_cases hc : truthyProp (lookupField "completed" fields) = true <;>
    by_cases hd : optConverts (lookupField "dueDate" fields) = true <;>
    simp [hc, hd] at h <;> exact h.symm
  | null => cases h; rfl
  | bool b => cases h
  | number n => cases h
  | string s => cases h
  | array xs => cases h

theorem forEachLoaded_error (f : JSValue → Except JSError Unit) (xs : List JSValue)
    (hf : ∀ x e, f x = .error e → e = .typeError) (e : JSError)
    (h : forEachLoaded f xs = .error e) : e = .typeError := by
  induction xs with
  | nil => cases h
  | cons x xs ih =>
    simp only [forEachLoaded, bind, Except.bind] at h
    cases hx : f x with
    | error e2 =>
      rw [hx] at h
      cases h
      exact hf x _ hx
    | ok u =>
      rw [hx] at h
      exact ih h

theorem renderLoaded_array (xs : List JSValue) :
    renderLoaded (.array xs) = if xs.all renderable then .ok xs else .error .typeError := by
  by_cases hall : xs.all renderable = true
  · have h1 : forEachLoaded getTaskStatusLoaded xs = .ok () :=
      forEachLoaded_ok _ _ (fun x hx =>
        getTaskStatusLoaded_of_renderable x (List.all_eq_true.1 hall x hx))
    have h2 : forEachLoaded readCompleted xs = .ok () :=
      forEachLoaded_ok _ _ (fun x hx =>
        readCompleted_of_renderable x (List.all_eq_true.1 hall x hx))
    simp only [renderLoaded, bind, Except.bind, h1, h2, forEachLoaded_renderItemLoaded, hall,
      if_true, pure, Except.pure]
    split <;> rfl
  · have hne : xs.isEmpty = false := by
      cases xs with
      | nil => exact absurd rfl hall
      | cons x xs => rfl
    simp only [hall]
    simp only [renderLoaded, bind, Except.bind, forEachLoaded_renderItemLoaded, hall, hne]
    cases h1 : forEachLoaded getTaskStatusLoaded xs with
    | error e =>
      rw [forEachLoaded_error _ _ getTaskStatusLoaded_error e h1]
      rfl
    | ok u =>
      cases h2 : forEachLoaded readCompleted xs with
      | error e =>
        rw [forEachLoaded_error _ _ readCompleted_error e h2]
        rfl
      | ok u2 => rfl

theorem renderable_toJSON (t : Todo) : renderable t.toJSON = true := by
  simp [renderable, propConverts, Todo.toJSON, lookupField, optConverts,
    JSValue.toPrimitiveOk, JSValue.isNull]

/-- The claim of C6 fails: a stored text that is not JSON ends the construction with a
`SyntaxError`; a stored object, a stored array with a `null` element and a stored array
with a record whose `dueDate` is an object with a property `toString` end it with a
`TypeError`; an absent key gives the empty sequence. -/
theorem constructor_throws_on_malformed :
    constructor .absent = .ok [] ∧
      constructor .unparseable = .error .syntaxError ∧
      constructor (.json (.object [("id", .string "a")])) = .error .typeError ∧
      constructor (.json (.array [.null])) = .error .typeError ∧
      constructor (.json (.array [.object [("dueDate", .object [("toString", .number 1)])]])) =
        .error .typeError :=
  ⟨rfl, rfl, rfl, rfl, rfl⟩

/-- C6, amended: the constructor falls back to the empty task sequence when the key is absent
and when the stored text parses to a falsy value (`null`, `false`, `0`, the empty string); a
stored text that is not JSON ends the construction with a `SyntaxError`; a stored truthy
value that is not an array ends it with a `TypeError`; a stored array is taken as the task
sequence as it is when every element is other than `null` and has `id`, `text` and `dueDate`
that convert to a primitive, as every array that the class has saved does, and ends the
construction with a `TypeError` otherwise. -/
theorem constructor_spec :
    constructor .absent = .ok [] ∧
      (∀ v : JSValue, v.truthy = false → constructor (.json v) = .ok []) ∧
      constructor .unparseable = .error .syntaxError ∧
      (∀ v : JSValue, v.truthy = true → v.isArray = false →
        constructor (.json v) = .error .typeError) ∧
      (∀ xs : List JSValue, constructor (.json (.array xs)) =
        if xs.all renderable then .ok xs else .error .typeError) ∧
      (∀ todos : List Todo, constructor (.json (.array (todos.map Todo.toJSON))) =
        .ok (todos.map Todo.toJSON)) := by
  have harr : ∀ xs : List JSValue, constructor (.json (.array xs)) =
      if xs.all renderable then .ok xs else .error .typeError := by
    intro xs
    simp only [constructor, parseStored, JSValue.truthy, bind, Except.bind, if_true]
    exact renderLoaded_array xs
  refine ⟨rfl, ?_, rfl, ?_, harr, ?_⟩
  · intro v hv
    simp only [constructor, parseStored, bind, Except.bind, hv]
    rfl
  · intro v hv hc
    cases v with
    | array xs => simp [JSValue.isArray] at hc
    | null => simp [JSValue.truthy] at hv
    | bool b => simp only [constructor, parseStored, bind, Except.bind, hv, if_true, renderLoaded]
    | number n => simp only [constructor, parseStored, bind, Except.bind, hv, if_true, renderLoaded]
    | string s => simp only [constructor, parseStored, bind, Except.bind, hv, if_true, renderLoaded]
    | object fs => rfl
  · intro todos
    rw [harr]
    have hall : (todos.map Todo.toJSON).all renderable = true := by
      simp [List.all_eq_true, renderable_toJSON]
    simp only [hall, if_true]

end TodoApp

end TodoList
